import Mathlib

/-!
Shallow embedding of `src/filemanager/files.py` (flaskeleton repository).

Python strings are modelled as `List Char`.  The host OS is taken to be a
POSIX system (`sys.platform != 'win32'`), as the spec's platform-dependent
claims do; on POSIX `os.path.splitdrive` is the identity (it returns
`('', pathname)`), `os.path.sep = '/'`, the guaranteed-existing root
directory is `'/'`, and `os.path.isdir('/')` holds, so the `assert` in
`is_pathname_valid` never fires.

The filesystem's response to an `os.lstat` probe of a NUL-free path is an
oracle `osResp : List Char → Probe` (success, or an `OSError` carrying an
optional `winerror` and an `errno`).  Independently of the filesystem,
CPython (3.5+) raises `ValueError: embedded null byte` whenever a path
given to `os.lstat` contains a NUL character; `pyLstat` bakes in exactly
this semantics.  No operation modelled here can raise `TypeError` on a
string argument, so the dead `except TypeError` handler of
`is_pathname_valid` has no counterpart in the embedding.
-/

namespace Flaskeleton

/-- POSIX path separator, `os.path.sep`. -/
def sep : Char := '/'

/-- NUL character. -/
def nulChar : Char := Char.ofNat 0

/-- Windows-specific error code `ERROR_INVALID_NAME` (files.py line 8). -/
def ERROR_INVALID_NAME : Int := 123

/-- Linux value of `errno.ENAMETOOLONG`. -/
def ENAMETOOLONG : Int := 36

/-- Linux value of `errno.ERANGE`. -/
def ERANGE : Int := 34

/-- An `OSError` as `is_pathname_valid` inspects it: `winerror` is present
only on Windows builds (`hasattr(exc, 'winerror')`), `errno` always is. -/
structure OSErr where
  winerror : Option Int
  errno : Int
deriving DecidableEq

/-- Oracle answer of the filesystem to an `os.lstat` probe of a NUL-free
path: sucessful stat, or an `OSError`. -/
inductive Probe where
| ok : Probe
| err (e : OSErr) : Probe
deriving DecidableEq

/-- Outcome of `os.lstat` as the Python code can observe it: success, an
`OSError`, or the `ValueError` CPython raises on an embedded NUL byte. -/
inductive LstatRes where
| ok : LstatRes
| oserr (e : OSErr) : LstatRes
| valueErr : LstatRes
deriving DecidableEq

/-- Does the string contain a NUL character? -/
def hasNul (l : List Char) : Bool :=
  l.any (fun c => c = nulChar)

/-- Python `os.lstat` on a POSIX CPython 3.5+: an embedded NUL byte raises
`ValueError` regardless of the filesystem; otherwise the filesystem
oracle answers. -/
def pyLstat (osResp : List Char → Probe) (s : List Char) : LstatRes :=
  if hasNul s then LstatRes.valueErr
  else
    match osResp s with
    | Probe.ok => LstatRes.ok
    | Probe.err e => LstatRes.oserr e

/-- Exceptions the embedded code can raise or store. -/
inductive PyExn where
| valueErrorNull : PyExn
| valueErrorPath : PyExn
| fileNotFound : PyExn
| osExn (e : OSErr) : PyExn
deriving DecidableEq

/-- Result of a Python function returning a `bool` unless it raises. -/
inductive VResult where
| ret (b : Bool) : VResult
| raise (e : PyExn) : VResult
deriving DecidableEq

/-- Python `str.split(sep)` on a single-character separator (for a
non-empty string; on the empty string Python returns `['']`, which this
definition also does). -/
def splitSep (c : Char) : List Char → List (List Char)
| [] => [[]]
| a :: rest =>
  if a = c then [] :: splitSep c rest
  else
    match splitSep c rest with
    | [] => [[a]]
    | p :: ps => (a :: p) :: ps

/-- The `for pathname_part in pathname.split(os.path.sep)` loop of
`is_pathname_valid` (files.py lines 61-87): each component is probed as
`root_dirname + pathname_part` = `'/' + part`; an `OSError` whose
`winerror` equals `ERROR_INVALID_NAME`, or (without `winerror`) whose
`errno` is `ENAMETOOLONG` or `ERANGE`, returns `False`; any other
`OSError` is ignored; the `ValueError` from an embedded NUL propagates
(it is neither an `OSError` nor a `TypeError`). -/
def checkParts (osResp : List Char → Probe) : List (List Char) → VResult
| [] => VResult.ret true
| part :: rest =>
  match pyLstat osResp (sep :: part) with
  | LstatRes.ok => checkParts osResp rest
  | LstatRes.valueErr => VResult.raise PyExn.valueErrorNull
  | LstatRes.oserr e =>
    match e.winerror with
    | some w =>
      if w = ERROR_INVALID_NAME then VResult.ret false else checkParts osResp rest
    | none =>
      if e.errno = ENAMETOOLONG ∨ e.errno = ERANGE then VResult.ret false
      else checkParts osResp rest

/-- Embedding of `is_pathname_valid` (files.py lines 20-99) on POSIX: an
empty string returns `False`; `os.path.splitdrive` is the identity;
`root_dirname` is `'/'`; each `'/'`-separated component is probed by
`checkParts`; falling out of the loop returns `True`. -/
def is_pathname_valid (osResp : List Char → Probe) (pathname : List Char) : VResult :=
  if pathname = [] then VResult.ret false
  else checkParts osResp (splitSep sep pathname)

/-- Content wrapper, class `FileContent` (files.py lines 110-112). -/
structure FileContent where
  content : List Char
deriving DecidableEq, Inhabited

/-- Validated-path wrapper, class `FilePath` (files.py lines 102-107);
only the stored `path` field, construction is `FilePath.init`. -/
structure FilePath where
  path : List Char
deriving DecidableEq

/-- Embedding of `FilePath.__init__`: raises `ValueError` when
`is_pathname_valid` returned `False` or the string is empty; an exception
raised inside `is_pathname_valid` propagates. -/
def FilePath.init (osResp : List Char → Probe) (file_path : List Char) :
    Except PyExn FilePath :=
  match is_pathname_valid osResp file_path with
  | VResult.raise e => Except.error e
  | VResult.ret b =>
    if b = false ∨ file_path = [] then Except.error PyExn.valueErrorPath
    else Except.ok ⟨file_path⟩

/-- Python `dict` lookup `d[k]` as an `Option` (first matching key; a
`dict` never holds a duplicate key). -/
def dictGet : List (List Char × FileContent) → List Char → Option FileContent
| [], _ => none
| (k1, v1) :: rest, k => if k1 = k then some v1 else dictGet rest k

/-- Python `dict` assignment `d[k] = v`: replace the value of an existing
key in place (insertion order kept), else append the new pair. -/
def dictSet : List (List Char × FileContent) → List Char → FileContent →
    List (List Char × FileContent)
| [], k, v => [(k, v)]
| (k1, v1) :: rest, k, v =>
  if k1 = k then (k, v) :: rest else (k1, v1) :: dictSet rest k v

/-- Python `del d[k]`: remove the pair with the matching key, or signal
`KeyError` (`none`) when the key is absent. -/
def dictDel : List (List Char × FileContent) → List Char →
    Option (List (List Char × FileContent))
| [], _ => none
| (k1, v1) :: rest, k =>
  if k1 = k then some rest
  else (dictDel rest k).map (fun l => (k1, v1) :: l)

/-- Class `FileManifest` (files.py lines 115-148): its `file_manifest`
dict, modelled as an insertion-ordered association list. -/
structure FileManifest where
  file_manifest : List (List Char × FileContent)
deriving DecidableEq

/-- Embedding of `FileManifest.add_to_manifest` (files.py lines 122-132):
`self.file_manifest[path.path] = content; return True`.  State passing is
explicit: the result is the returned `bool` and the updated manifest. -/
def FileManifest.add_to_manifest (m : FileManifest) (path : FilePath)
    (content : FileContent) : Bool × FileManifest :=
  (true, ⟨dictSet m.file_manifest path.path content⟩)

/-- Embedding of `FileManifest.remove_from_manifest` (files.py lines
134-148): default argument `path = None` is an `Option`; `del` of an
absent key raises `KeyError`, caught and turned into `False`. -/
def FileManifest.remove_from_manifest (m : FileManifest)
    (path : Option FilePath) : Bool × FileManifest :=
  match path with
  | none => (false, m)
  | some p =>
    match dictDel m.file_manifest p.path with
    | some l => (true, ⟨l⟩)
    | none => (false, m)

/-- Python `os.path.rfind('/') + 1` over a character list: the index one
past the last occurrence of `c`, or `0` when `c` does not occur. -/
def rfindSucc (c : Char) : List Char → Nat
| [] => 0
| a :: rest =>
  match rfindSucc c rest with
  | 0 => if a = c then 1 else 0
  | n + 1 => n + 2

/-- Python `str.rstrip('/')`: drop trailing separators. -/
def rstripSep (l : List Char) : List Char :=
  ((l.reverse).dropWhile (fun c => c = sep)).reverse

/-- Embedding of `posixpath.dirname`: take everything up to and including
the last `'/'`, then strip trailing `'/'`s unless the head is empty or
consists only of `'/'`s. -/
def dirname (p : List Char) : List Char :=
  let head := p.take (rfindSucc sep p)
  if head ≠ [] ∧ ¬ head.all (fun c => c = sep) then rstripSep head else head

/-- Run-time outcome of a filesystem action: the new state, or an
exception together with the state at the moment it was raised (a failing
batch keeps its partial effects, nothing is rolled back). -/
inductive Res (σ : Type) where
| ok (s : σ) : Res σ
| err (e : PyExn) (s : σ) : Res σ
deriving DecidableEq

/-- Host-OS model for the materializer: the effect (and possible failure)
of `os.makedirs(..., exist_ok=True)` on a non-empty path, `Path(...).touch()`,
and `open(file, 'w').write(...)`, over an abstract filesystem state `σ`. -/
structure OSModel (σ : Type) where
  makedirs : List Char → σ → Res σ
  touch : List Char → σ → Res σ
  write : List Char → List Char → σ → Res σ

/-- Python `os.makedirs(path, exist_ok=True)`: on the empty string it
always raises `FileNotFoundError` (its final `mkdir('')` fails and
`isdir('')` is false, so `exist_ok` does not apply); otherwise the OS
model answers. -/
def pyMakedirs {σ : Type} (os : OSModel σ) (p : List Char) (s : σ) : Res σ :=
  if p = [] then Res.err PyExn.fileNotFound s else os.makedirs p s

/-- Body of one iteration of the `create_and_write_files` loop (files.py
lines 165-168): `os.makedirs(os.path.dirname(path), exist_ok=True)`, then
`Path(path).touch()`, then `write_file(path, content.content)`. -/
def processEntry {σ : Type} (os : OSModel σ) (e : List Char × FileContent)
    (s : σ) : Res σ :=
  match pyMakedirs os (dirname e.1) s with
  | Res.err ex s1 => Res.err ex s1
  | Res.ok s1 =>
    match os.touch e.1 s1 with
    | Res.err ex s2 => Res.err ex s2
    | Res.ok s2 => os.write e.1 e.2.content s2

/-- The `for path, content in self.manifest.items()` loop: entries are
processed in insertion order, the first exception aborts the rest. -/
def runEntries {σ : Type} (os : OSModel σ) :
    List (List Char × FileContent) → σ → Res σ
| [], s => Res.ok s
| e :: rest, s =>
  match processEntry os e s with
  | Res.ok s1 => runEntries os rest s1
  | Res.err ex s1 => Res.err ex s1

/-- Class `File` (files.py lines 151-156): holds the manifest dict of the
`FileManifest` it was constructed from. -/
structure File where
  manifest : List (List Char × FileContent)

/-- Embedding of `File.__init__`. -/
def File.ofManifest (m : FileManifest) : File :=
  ⟨m.file_manifest⟩

/-- Embedding of `File.create_and_write_files` (files.py lines 158-172):
the whole loop runs under one `try`; any exception is caught (`print`ed,
a side effect not modelled) and turned into `False`, with the filesystem
state left as it was when the exception arose; completion returns `True`. -/
def File.create_and_write_files {σ : Type} (os : OSModel σ) (f : File)
    (s : σ) : Bool × σ :=
  match runEntries os f.manifest s with
  | Res.ok s1 => (true, s1)
  | Res.err _ s1 => (false, s1)

/-- A probe outcome that `is_pathname_valid` ignores and moves past: a
successful `lstat`, or an `OSError` outside the recognized invalid-name
class (`winerror == ERROR_INVALID_NAME`, or no `winerror` and `errno` in
`{ENAMETOOLONG, ERANGE}`). -/
def inconclusive (osResp : List Char → Probe) (q : List Char) : Bool :=
  match pyLstat osResp (sep :: q) with
  | LstatRes.ok => true
  | LstatRes.valueErr => false
  | LstatRes.oserr e =>
    match e.winerror with
    | some w => if w = ERROR_INVALID_NAME then false else true
    | none => if e.errno = ENAMETOOLONG ∨ e.errno = ERANGE then false else true

/-- The 256-character component `'a' * 256` of the docstring example. -/
def a256 : List Char := List.replicate 256 'a'

/-- Filesystem oracle on which every `lstat` probe of a NUL-free path
succeeds. -/
def demoResp : List Char → Probe := fun _ => Probe.ok

/-- Oracle reporting `ENOENT` (errno 2, ignorable) for `'/a'` and success
elsewhere. -/
def demoResp2 : List Char → Probe :=
  fun s => if s = [sep, 'a'] then Probe.err ⟨none, 2⟩ else Probe.ok

/-- Oracle reporting `ENAMETOOLONG` for the probe of `'/' + 'a' * 256`. -/
def demoResp9 : List Char → Probe :=
  fun s => if s = sep :: a256 then Probe.err ⟨none, ENAMETOOLONG⟩ else Probe.ok

/-- Concrete filesystem state for witnesses: the list of (path, content)
pairs written so far. -/
abbrev DemoFS : Type := List (List Char × List Char)

/-- Concrete OS model for witnesses: directory creation and touch always
succeed, a write records the (path, content) pair. -/
def demoOS : OSModel DemoFS where
  makedirs := fun _ s => Res.ok s
  touch := fun _ s => Res.ok s
  write := fun p c s => Res.ok ((p, c) :: s)

/-- Two-entry manifest used by witnesses. -/
def demoM : FileManifest :=
  ⟨[(['a'], ⟨['1']⟩), (['b'], ⟨['2']⟩)]⟩

/-- The characters of `'foo.bar'`, the docstring's bare-filename example. -/
def fooList : List Char := ['f', 'o', 'o', '.', 'b', 'a', 'r']

/-- One-entry manifest holding the bare filename `'foo.bar'`. -/
def fooM : FileManifest := ⟨[(fooList, ⟨[]⟩)]⟩

/-- Splitting never yields an empty list of parts. -/
theorem splitSep_ne_nil (c : Char) (l : List Char) : splitSep c l ≠ [] := by
  induction l with
  | nil => simp [splitSep]
  | cons a rest ih =>
    simp only [splitSep]
    split
    · simp
    · split
      · simp
      · simp

/-- Splitting a string free of the separator yields the single part. -/
theorem splitSep_of_not_mem (c : Char) (l : List Char) (h : c ∉ l) :
    splitSep c l = [l] := by
  induction l with
  | nil => rfl
  | cons a rest ih =>
    have ha : ¬ a = c := fun hc => h (by rw [hc]; exact List.mem_cons_self c rest)
    have hr := ih (fun hc => h (List.mem_cons_of_mem a hc))
    simp only [splitSep, if_neg ha, hr]

/-- A character other than the separator survives the split: it lies in
some part. -/
theorem exists_part_mem (c d : Char) (hcd : c ≠ d) (l : List Char)
    (h : c ∈ l) : ∃ part ∈ splitSep d l, c ∈ part := by
  induction l with
  | nil => cases h
  | cons a rest ih =>
    by_cases had : a = d
    · subst had
      have hcr : c ∈ rest := by
        rcases List.mem_cons.mp h with h1 | h2
        · exact absurd h1 hcd
        · exact h2
      obtain ⟨part, hp, hc⟩ := ih hcr
      exact ⟨part, by simp only [splitSep, if_pos rfl]; exact List.mem_cons_of_mem _ hp, hc⟩
    · rcases hq : splitSep d rest with _ | ⟨p, ps⟩
      · exact absurd hq (splitSep_ne_nil d rest)
      · have hshape : splitSep d (a :: rest) = (a :: p) :: ps := by
          simp only [splitSep, if_neg had, hq]
        rcases List.mem_cons.mp h with h1 | h2
        · exact ⟨a :: p, by rw [hshape]; exact List.mem_cons_self _ _,
            by rw [h1]; exact List.mem_cons_self _ _⟩
        · obtain ⟨part, hp, hc⟩ := ih h2
          rw [hq] at hp
          rcases List.mem_cons.mp hp with h3 | h4
          · refine ⟨a :: p, by rw [hshape]; exact List.mem_cons_self _ _, ?_⟩
            rw [h3] at hc
            exact List.mem_cons_of_mem a hc
          · exact ⟨part, by rw [hshape]; exact List.mem_cons_of_mem _ h4, hc⟩

/-- Characterization of `hasNul`. -/
theorem hasNul_iff (l : List Char) : hasNul l = true ↔ nulChar ∈ l := by
  constructor
  · intro h
    obtain ⟨x, hx, he⟩ := List.any_eq_true.mp h
    rwa [of_decide_eq_true he] at hx
  · intro h
    exact List.any_eq_true.mpr ⟨nulChar, h, by simp⟩

/-- An `lstat` that did not raise `ValueError` saw a NUL-free path. -/
theorem not_hasNul_of_pyLstat_ne (osResp : List Char → Probe) (s : List Char)
    (h : pyLstat osResp s ≠ LstatRes.valueErr) : hasNul s = false := by
  by_cases hn : hasNul s = true
  · exact absurd (by simp [pyLstat, hn]) h
  · exact Bool.not_eq_true _ |>.mp hn

/-- If the component loop fell through and returned `True`, no probed
component contained a NUL character. -/
theorem checkParts_ret_true (osResp : List Char → Probe)
    (parts : List (List Char)) (h : checkParts osResp parts = VResult.ret true) :
    ∀ part ∈ parts, nulChar ∉ part := by
  induction parts with
  | nil => intro part hp; cases hp
  | cons q rest ih =>
    intro part hp
    rcases hL : pyLstat osResp (sep :: q) with _ | e | _ <;>
      simp only [checkParts, hL] at h
    · have hq : nulChar ∉ q := by
        intro hc
        have hfalse : hasNul (sep :: q) = false :=
          not_hasNul_of_pyLstat_ne osResp _ (by rw [hL]; intro hcc; cases hcc)
        have htrue : hasNul (sep :: q) = true :=
          (hasNul_iff _).mpr (List.mem_cons_of_mem sep hc)
        rw [hfalse] at htrue
        cases htrue
      rcases List.mem_cons.mp hp with h1 | h2
      · rw [h1]; exact hq
      · exact ih h part h2
    · have hq : nulChar ∉ q := by
        intro hc
        have hfalse : hasNul (sep :: q) = false :=
          not_hasNul_of_pyLstat_ne osResp _ (by rw [hL]; intro hcc; cases hcc)
        have htrue : hasNul (sep :: q) = true :=
          (hasNul_iff _).mpr (List.mem_cons_of_mem sep hc)
        rw [hfalse] at htrue
        cases htrue
      have hrest : checkParts osResp rest = VResult.ret true := by
        rcases hw : e.winerror with _ | w <;> simp only [hw] at h
        · by_cases he : e.errno = ENAMETOOLONG ∨ e.errno = ERANGE
          · rw [if_pos he] at h; cases h
          · rwa [if_neg he] at h
        · by_cases hwe : w = ERROR_INVALID_NAME
          · rw [if_pos hwe] at h; cases h
          · rwa [if_neg hwe] at h
      rcases List.mem_cons.mp hp with h1 | h2
      · rw [h1]; exact hq
      · exact ih hrest part h2
    · cases h

/-- On a NUL-containing pathname `is_pathname_valid` never returns `True`. -/
theorem valid_nul_ne_true (osResp : List Char → Probe) (p : List Char)
    (h : nulChar ∈ p) : is_pathname_valid osResp p ≠ VResult.ret true := by
  intro hv
  have hne : p ≠ [] := by intro he; rw [he] at h; cases h
  rw [is_pathname_valid, if_neg hne] at hv
  obtain ⟨part, hp, hc⟩ := exists_part_mem nulChar sep (by decide) p h
  exact (checkParts_ret_true osResp _ hv part hp) hc

/-- An inconclusive probe is skipped: the loop continues with the
remaining components. -/
theorem checkParts_cons_inconclusive (osResp : List Char → Probe)
    (q : List Char) (rest : List (List Char))
    (h : inconclusive osResp q = true) :
    checkParts osResp (q :: rest) = checkParts osResp rest := by
  rcases hL : pyLstat osResp (sep :: q) with _ | e | _ <;>
    simp only [inconclusive, hL] at h ⊢
  · simp only [checkParts, hL]
  · rcases hw : e.winerror with _ | w <;> simp only [hw] at h <;>
      simp only [checkParts, hL, hw]
    · by_cases he : e.errno = ENAMETOOLONG ∨ e.errno = ERANGE
      · rw [if_pos he] at h; cases h
      · rw [if_neg he]
    · by_cases hwe : w = ERROR_INVALID_NAME
      · rw [if_pos hwe] at h; cases h
      · rw [if_neg hwe]
  · cases h

/-- A run of inconclusive probes is skipped wholesale. -/
theorem checkParts_skip (osResp : List Char → Probe)
    (pre rest : List (List Char))
    (h : ∀ q ∈ pre, inconclusive osResp q = true) :
    checkParts osResp (pre ++ rest) = checkParts osResp rest := by
  induction pre with
  | nil => rfl
  | cons q pre1 ih =>
    rw [List.cons_append,
      checkParts_cons_inconclusive osResp q _ (h q (List.mem_cons_self q pre1))]
    exact ih (fun r hr => h r (List.mem_cons_of_mem q hr))

/-- Lookup after a `dict` assignment finds the assigned value. -/
theorem dictGet_dictSet_self (l : List (List Char × FileContent))
    (k : List Char) (v : FileContent) : dictGet (dictSet l k v) k = some v := by
  induction l with
  | nil => simp [dictSet, dictGet]
  | cons a rest ih =>
    by_cases h : a.1 = k
    · simp [dictSet, dictGet, h]
    · simp [dictSet, dictGet, h, ih]

/-- The assigned key is a key of the assigned dict. -/
theorem mem_keys_dictSet_self (l : List (List Char × FileContent))
    (k : List Char) (v : FileContent) : k ∈ (dictSet l k v).map Prod.fst := by
  induction l with
  | nil => simp [dictSet]
  | cons a rest ih =>
    by_cases h : a.1 = k
    · simp [dictSet, h]
    · simp only [dictSet, if_neg h, List.map_cons, List.mem_cons]
      exact Or.inr ih

/-- Assigning an existing key keeps the dict size. -/
theorem length_dictSet_of_mem (l : List (List Char × FileContent))
    (k : List Char) (v : FileContent) (h : k ∈ l.map Prod.fst) :
    (dictSet l k v).length = l.length := by
  induction l with
  | nil => cases h
  | cons a rest ih =>
    by_cases hk : a.1 = k
    · simp [dictSet, hk]
    · have h2 : k ∈ rest.map Prod.fst := by
        rw [List.map_cons] at h
        rcases List.mem_cons.mp h with h1 | h1
        · exact absurd h1.symm hk
        · exact h1
      simp [dictSet, hk, ih h2]

/-- Lookup of an absent key yields `none`. -/
theorem dictGet_eq_none_of_not_mem (l : List (List Char × FileContent))
    (k : List Char) (h : k ∉ l.map Prod.fst) : dictGet l k = none := by
  induction l with
  | nil => rfl
  | cons a rest ih =>
    have hk : ¬ a.1 = k := fun hc => h (by simp [hc])
    have h2 : k ∉ rest.map Prod.fst := fun hc => h (by simp [hc])
    simp [dictGet, hk, ih h2]

/-- Deleting a present key succeeds. -/
theorem dictDel_some_of_mem (l : List (List Char × FileContent))
    (k : List Char) (h : k ∈ l.map Prod.fst) :
    ∃ l2, dictDel l k = some l2 := by
  induction l with
  | nil => cases h
  | cons a rest ih =>
    by_cases hk : a.1 = k
    · exact ⟨rest, by simp [dictDel, hk]⟩
    · have h2 : k ∈ rest.map Prod.fst := by
        rw [List.map_cons] at h
        rcases List.mem_cons.mp h with h1 | h1
        · exact absurd h1.symm hk
        · exact h1
      obtain ⟨l3, hl3⟩ := ih h2
      exact ⟨(a.1, a.2) :: l3, by simp [dictDel, hk, hl3]⟩

/-- Deleting an absent key raises `KeyError`. -/
theorem dictDel_none_of_not_mem (l : List (List Char × FileContent))
    (k : List Char) (h : k ∉ l.map Prod.fst) : dictDel l k = none := by
  induction l with
  | nil => rfl
  | cons a rest ih =>
    have hk : ¬ a.1 = k := fun hc => h (by simp [hc])
    have h2 : k ∉ rest.map Prod.fst := fun hc => h (by simp [hc])
    simp [dictDel, hk, ih h2]

/-- After deleting a key from a duplicate-free dict, the key is absent. -/
theorem dictGet_dictDel_self (l l2 : List (List Char × FileContent))
    (k : List Char) (hnd : (l.map Prod.fst).Nodup)
    (h : dictDel l k = some l2) : dictGet l2 k = none := by
  induction l generalizing l2 with
  | nil => cases h
  | cons a rest ih =>
    rw [List.map_cons, List.nodup_cons] at hnd
    by_cases hk : a.1 = k
    · simp only [dictDel, if_pos hk] at h
      cases h
      exact dictGet_eq_none_of_not_mem rest k (hk ▸ hnd.1)
    · simp only [dictDel, if_neg hk] at h
      rcases hd : dictDel rest k with _ | l3 <;> rw [hd] at h
      · cases h
      · simp only [Option.map_some'] at h
        cases h
        simp [dictGet, hk, ih l3 hnd.2 hd]

/-- Deleting one key leaves lookups of every other key unchanged. -/
theorem dictGet_dictDel_ne (l l2 : List (List Char × FileContent))
    (k k2 : List Char) (h : dictDel l k = some l2) (hne : k2 ≠ k) :
    dictGet l2 k2 = dictGet l k2 := by
  induction l generalizing l2 with
  | nil => cases h
  | cons a rest ih =>
    by_cases hk : a.1 = k
    · simp only [dictDel, if_pos hk] at h
      cases h
      have : ¬ a.1 = k2 := fun hc => hne (by rw [← hc, hk])
      simp [dictGet, this]
    · simp only [dictDel, if_neg hk] at h
      rcases hd : dictDel rest k with _ | l3 <;> rw [hd] at h
      · cases h
      · simp only [Option.map_some'] at h
        cases h
        by_cases h2 : a.1 = k2
        · simp [dictGet, h2]
        · simp [dictGet, h2, ih l3 hd]

/-- Splitting a batch run at a list concatenation. -/
theorem runEntries_append {σ : Type} (os : OSModel σ)
    (l1 l2 : List (List Char × FileContent)) (s : σ) :
    runEntries os (l1 ++ l2) s =
      match runEntries os l1 s with
      | Res.ok s1 => runEntries os l2 s1
      | Res.err e s1 => Res.err e s1 := by
  induction l1 generalizing s with
  | nil => rfl
  | cons e rest ih =>
    simp only [List.cons_append, runEntries]
    cases hpe : processEntry os e s with
    | ok s1 => simp only [hpe]; exact ih s1
    | err ex s1 => simp only [hpe]

/-- A separator-free path has no occurrence of the separator, so
`rfind` reports none. -/
theorem rfindSucc_eq_zero (c : Char) (l : List Char) (h : c ∉ l) :
    rfindSucc c l = 0 := by
  induction l with
  | nil => rfl
  | cons a rest ih =>
    have ha : ¬ a = c := fun hc => h (by rw [hc]; exact List.mem_cons_self c rest)
    have hr := ih (fun hc => h (List.mem_cons_of_mem a hc))
    simp [rfindSucc, hr, ha]

/-- A bare filename (no separator) has the empty string as its
directory part. -/
theorem dirname_of_not_mem_sep (p : List Char) (h : sep ∉ p) :
    dirname p = [] := by
  simp [dirname, rfindSucc_eq_zero sep p h]

/-- A batch containing an entry whose directory part is empty always
raises: either an earlier entry raises first, or `os.makedirs('')` does. -/
theorem runEntries_err_of_dirname_nil {σ : Type} (os : OSModel σ)
    (l : List (List Char × FileContent)) (s : σ)
    (h : ∃ pc ∈ l, dirname pc.1 = []) :
    ∃ ex s1, runEntries os l s = Res.err ex s1 := by
  induction l generalizing s with
  | nil =>
    obtain ⟨pc, hm, _⟩ := h
    cases hm
  | cons e rest ih =>
    obtain ⟨pc, hm, hd⟩ := h
    rcases List.mem_cons.mp hm with h1 | h1
    · refine ⟨PyExn.fileNotFound, s, ?_⟩
      have : dirname e.1 = [] := by rw [← h1]; exact hd
      simp [runEntries, processEntry, pyMakedirs, this]
    · cases hpe : processEntry os e s with
      | ok s1 =>
        obtain ⟨ex, s2, hr⟩ := ih s1 ⟨pc, h1, hd⟩
        exact ⟨ex, s2, by simp [runEntries, hpe, hr]⟩
      | err ex s1 => exact ⟨ex, s1, by simp [runEntries, hpe]⟩

/-- Claim C1, counterexample: the claim says a NUL-containing pathname
makes `is_pathname_valid` return `False` rather than raise.  On the
pathname `'\x00'` (the docstring's own example) the `os.lstat` probe
raises `ValueError: embedded null byte`, which is neither an `OSError`
nor a `TypeError`, so it propagates: the call raises instead of
returning `False`.  The repository's test suite asserts exactly this
(`pytest.raises(ValueError)` in tests/test_filemanager.py). -/
theorem claim1_counterexample :
    is_pathname_valid demoResp [nulChar] = VResult.raise PyExn.valueErrorNull ∧
      is_pathname_valid demoResp [nulChar] ≠ VResult.ret false := by
  decide

/-- Claim C1, amended: for every pathname containing an embedded NUL
byte, `is_pathname_valid` never classifies it as valid — it either
returns `False` (when an earlier component's probe already reported an
invalid-name error) or raises `ValueError` (when a NUL-containing
component reaches the probe). -/
theorem claim1_amended (osResp : List Char → Probe) (p : List Char)
    (h : nulChar ∈ p) :
    is_pathname_valid osResp p = VResult.ret false ∨
      ∃ e, is_pathname_valid osResp p = VResult.raise e := by
  rcases hv : is_pathname_valid osResp p with b | e
  · cases b
    · exact Or.inl rfl
    · exact absurd hv (valid_nul_ne_true osResp p h)
  · exact Or.inr ⟨e, rfl⟩

/-- Claim C1, witness: the amended claim applied to the pathname
`'a\x00'` on the all-probes-succeed oracle. -/
theorem claim1_witness :
    is_pathname_valid demoResp ['a', nulChar] = VResult.ret false ∨
      ∃ e, is_pathname_valid demoResp ['a', nulChar] = VResult.raise e :=
  claim1_amended demoResp ['a', nulChar] (by decide)

/-- Claim C6: when the component scan reaches an internal fault that is
not in the recognized invalid-name class of OS error (here the
`ValueError` from a NUL-containing component, the only non-`OSError`
fault realizable on a string input of CPython 3.5+), after any run of
ignorable probe outcomes, `is_pathname_valid` propagates it as an
exception instead of converting it into a boolean result. -/
theorem claim6_fault_propagates (osResp : List Char → Probe)
    (p part : List Char) (pre rest : List (List Char))
    (hp : p ≠ [])
    (hsplit : splitSep sep p = pre ++ part :: rest)
    (hpre : ∀ q ∈ pre, inconclusive osResp q = true)
    (hfault : nulChar ∈ part) :
    is_pathname_valid osResp p = VResult.raise PyExn.valueErrorNull := by
  rw [is_pathname_valid, if_neg hp, hsplit, checkParts_skip osResp pre _ hpre]
  have hn : hasNul (sep :: part) = true :=
    (hasNul_iff _).mpr (List.mem_cons_of_mem sep hfault)
  simp [checkParts, pyLstat, hn]

/-- Claim C6, witness: on `'a/\x00'` with an oracle answering `ENOENT`
(ignorable) for `'/a'`, the fault at the second component propagates. -/
theorem claim6_witness :
    is_pathname_valid demoResp2 ['a', Flaskeleton.sep, nulChar] =
      VResult.raise PyExn.valueErrorNull :=
  claim6_fault_propagates demoResp2 ['a', Flaskeleton.sep, nulChar]
    [nulChar] [['a']] [] (by decide) (by decide) (by decide) (by decide)

/-- Claim C7: constructing a `FilePath` from a string containing a NUL
byte signals an invalid path by raising an exception (never by returning
a value): either the `ValueError` from the probe propagates out of
`is_pathname_valid`, or `is_pathname_valid` returns `False` and
`FilePath.__init__` raises `ValueError('Path must be valid, and not
empty')`. -/
theorem claim7_construct_raises (osResp : List Char → Probe)
    (p : List Char) (h : nulChar ∈ p) :
    ∃ e, FilePath.init osResp p = Except.error e := by
  rcases hv : is_pathname_valid osResp p with b | e
  · cases b
    · exact ⟨PyExn.valueErrorPath, by simp [FilePath.init, hv]⟩
    · exact absurd hv (valid_nul_ne_true osResp p h)
  · exact ⟨e, by simp [FilePath.init, hv]⟩

/-- Claim C7, witness: constructing a `FilePath` from `'\x00x'` raises. -/
theorem claim7_witness :
    ∃ e, FilePath.init demoResp [nulChar, 'x'] = Except.error e :=
  claim7_construct_raises demoResp [nulChar, 'x'] (by decide)

set_option maxRecDepth 8192 in
/-- Claim C9: on a POSIX system whose `lstat` probe of `'/' + 'a' * 256`
reports `ENAMETOOLONG`, `is_pathname_valid('a' * 256)` returns `False`. -/
theorem claim9_nametoolong (osResp : List Char → Probe)
    (h : osResp (sep :: a256) = Probe.err ⟨none, ENAMETOOLONG⟩) :
    is_pathname_valid osResp a256 = VResult.ret false := by
  have hne : a256 ≠ [] := by decide
  have hsep : sep ∉ a256 := by decide
  have hnul : hasNul (sep :: a256) = false := by decide
  rw [is_pathname_valid, if_neg hne, splitSep_of_not_mem sep a256 hsep]
  simp [checkParts, pyLstat, hnul, h]

set_option maxRecDepth 8192 in
/-- Claim C9, witness: the concrete oracle reporting `ENAMETOOLONG` for
the single 256-character component. -/
theorem claim9_witness : is_pathname_valid demoResp9 a256 = VResult.ret false :=
  claim9_nametoolong demoResp9 (by decide)

/-- Claim C2: `add_to_manifest` always returns `True`, afterwards the
manifest maps `path.path` to the given content, and inserting the same
path again with different content overwrites in place: the latest
content wins and the manifest size does not grow on the second insert. -/
theorem claim2_add_overwrites (m : FileManifest) (p : FilePath)
    (c : FileContent) :
    (m.add_to_manifest p c).1 = true ∧
    dictGet (m.add_to_manifest p c).2.file_manifest p.path = some c ∧
    ∀ c2 : FileContent,
      dictGet ((m.add_to_manifest p c).2.add_to_manifest p c2).2.file_manifest
          p.path = some c2 ∧
      ((m.add_to_manifest p c).2.add_to_manifest p c2).2.file_manifest.length
        = (m.add_to_manifest p c).2.file_manifest.length := by
  refine ⟨rfl, dictGet_dictSet_self _ _ _, fun c2 => ⟨dictGet_dictSet_self _ _ _, ?_⟩⟩
  exact length_dictSet_of_mem _ _ _ (mem_keys_dictSet_self _ _ _)

/-- Claim C3: removing a present key returns `True`, afterwards the key
is absent, and every other key still maps to its previous content (the
`Nodup` hypothesis is the `dict` invariant: a Python dict never holds a
duplicate key). -/
theorem claim3_remove_present (m : FileManifest) (p : FilePath)
    (hnd : (m.file_manifest.map Prod.fst).Nodup)
    (hmem : p.path ∈ m.file_manifest.map Prod.fst) :
    (m.remove_from_manifest (some p)).1 = true ∧
    dictGet (m.remove_from_manifest (some p)).2.file_manifest p.path = none ∧
    ∀ k, k ≠ p.path →
      dictGet (m.remove_from_manifest (some p)).2.file_manifest k
        = dictGet m.file_manifest k := by
  obtain ⟨l2, hl2⟩ := dictDel_some_of_mem m.file_manifest p.path hmem
  refine ⟨?_, ?_, ?_⟩
  · simp [FileManifest.remove_from_manifest, hl2]
  · simp only [FileManifest.remove_from_manifest, hl2]
    exact dictGet_dictDel_self m.file_manifest l2 p.path hnd hl2
  · intro k hk
    simp only [FileManifest.remove_from_manifest, hl2]
    exact dictGet_dictDel_ne m.file_manifest l2 p.path k hl2 hk

/-- Claim C3, witness: removing `'a'` from the two-entry manifest
`{'a': '1', 'b': '2'}` returns `True`, leaves `'a'` absent, and leaves
the lookup of `'b'` unchanged. -/
theorem claim3_witness :
    (demoM.remove_from_manifest (some ⟨['a']⟩)).1 = true ∧
    dictGet (demoM.remove_from_manifest (some ⟨['a']⟩)).2.file_manifest
      ['a'] = none ∧
    dictGet (demoM.remove_from_manifest (some ⟨['a']⟩)).2.file_manifest
      ['b'] = dictGet demoM.file_manifest ['b'] := by
  obtain ⟨h1, h2, h3⟩ :=
    claim3_remove_present demoM ⟨['a']⟩ (by decide) (by decide)
  exact ⟨h1, h2, h3 ['b'] (by decide)⟩

/-- Claim C4: calling `remove_from_manifest` with no argument, or with a
path absent from the manifest, returns `False` and leaves the manifest
exactly unchanged (the `KeyError` of the `del` is caught, so no
exception escapes: the embedding is total). -/
theorem claim4_remove_absent (m : FileManifest) (p : FilePath) :
    m.remove_from_manifest none = (false, m) ∧
    (p.path ∉ m.file_manifest.map Prod.fst →
      m.remove_from_manifest (some p) = (false, m)) := by
  refine ⟨rfl, fun h => ?_⟩
  simp [FileManifest.remove_from_manifest,
    dictDel_none_of_not_mem m.file_manifest p.path h]

/-- Claim C4, witness: removing with no argument, and removing the
absent key `'z'`, both return `False` and keep the manifest. -/
theorem claim4_witness :
    demoM.remove_from_manifest none = (false, demoM) ∧
    demoM.remove_from_manifest (some ⟨['z']⟩) = (false, demoM) := by
  obtain ⟨h1, h2⟩ := claim4_remove_absent demoM ⟨['z']⟩
  exact ⟨h1, h2 (by decide)⟩

/-- Claim C5: when every entry of a prefix of the manifest processes
without an exception and the next entry raises, `create_and_write_files`
returns `False` with the filesystem exactly as the failing step left it:
the files written for the earlier entries stay on disk (no rollback) and
the remaining entries are never processed; and when no entry raises, it
returns `True`. -/
theorem claim5_abort_no_rollback {σ : Type} (os : OSModel σ)
    (pre post : List (List Char × FileContent)) (e : List Char × FileContent)
    (s s1 s2 : σ) (ex : PyExn)
    (h1 : runEntries os pre s = Res.ok s1)
    (h2 : processEntry os e s1 = Res.err ex s2) :
    File.create_and_write_files os ⟨pre ++ e :: post⟩ s = (false, s2) ∧
    ∀ (f : File) (s0 s3 : σ), runEntries os f.manifest s0 = Res.ok s3 →
      File.create_and_write_files os f s0 = (true, s3) := by
  constructor
  · have hrun : runEntries os (pre ++ e :: post) s = Res.err ex s2 := by
      rw [runEntries_append, h1]
      simp only [runEntries, h2]
    simp [File.create_and_write_files, hrun]
  · intro f s0 s3 h
    simp [File.create_and_write_files, h]

/-- Claim C5, witness: a two-entry batch on the concrete OS model whose
first entry `'d/f'` is written and whose second entry `'x'` fails at
directory creation: the result is `False` and the state still records
the first write. -/
theorem claim5_witness :
    File.create_and_write_files demoOS
        ⟨[(['d', Flaskeleton.sep, 'f'], ⟨['h', 'i']⟩)] ++
          (['x'], (⟨[]⟩ : FileContent)) :: []⟩ ([] : DemoFS) =
      (false, [(['d', Flaskeleton.sep, 'f'], ['h', 'i'])]) ∧
    File.create_and_write_files demoOS
        ⟨[(['d', Flaskeleton.sep, 'f'], ⟨['h', 'i']⟩)]⟩ ([] : DemoFS) =
      (true, [(['d', Flaskeleton.sep, 'f'], ['h', 'i'])]) := by
  have h := claim5_abort_no_rollback demoOS
    [(['d', Flaskeleton.sep, 'f'], ⟨['h', 'i']⟩)] []
    (['x'], (⟨[]⟩ : FileContent)) ([] : DemoFS)
    [(['d', Flaskeleton.sep, 'f'], ['h', 'i'])]
    [(['d', Flaskeleton.sep, 'f'], ['h', 'i'])]
    PyExn.fileNotFound (by decide) (by decide)
  exact ⟨h.1, h.2 ⟨[(['d', Flaskeleton.sep, 'f'], ⟨['h', 'i']⟩)]⟩
    ([] : DemoFS) [(['d', Flaskeleton.sep, 'f'], ['h', 'i'])] (by decide)⟩

/-- Claim C8: materializing an empty manifest returns `True` and leaves
the filesystem state unchanged, for every OS model (so no filesystem
operation is consulted at all). -/
theorem claim8_empty_manifest {σ : Type} (os : OSModel σ) (s : σ) :
    File.create_and_write_files os (File.ofManifest ⟨[]⟩) s = (true, s) :=
  rfl

/-- Claim C10 (implicit): a manifest containing an entry whose path is a
bare filename (non-empty, no `'/'`) makes `create_and_write_files`
return `False` on every OS model — `os.path.dirname` of such a path is
`''` and `os.makedirs('')` raises — even though `is_pathname_valid`
accepts such a path (second conjunct: a NUL-free bare filename whose
probe succeeds validates as `True`, so `FilePath` construction accepts
it). -/
theorem claim10_bare_filename {σ : Type} (os : OSModel σ) (m : FileManifest)
    (s : σ) (p : List Char) (c : FileContent)
    (hmem : (p, c) ∈ m.file_manifest)
    (hsep : sep ∉ p) :
    (File.create_and_write_files os (File.ofManifest m) s).1 = false ∧
    ∀ osResp : List Char → Probe, p ≠ [] → hasNul p = false →
      osResp (sep :: p) = Probe.ok →
      is_pathname_valid osResp p = VResult.ret true := by
  constructor
  · obtain ⟨ex, s1, hr⟩ := runEntries_err_of_dirname_nil os m.file_manifest s
      ⟨(p, c), hmem, dirname_of_not_mem_sep p hsep⟩
    simp [File.create_and_write_files, File.ofManifest, hr]
  · intro osResp hne hnul hok
    rw [is_pathname_valid, if_neg hne, splitSep_of_not_mem sep p hsep]
    have hn2 : hasNul (sep :: p) = false := by
      simp only [hasNul, List.any_cons] at hnul ⊢
      simp [hnul]
      decide
    simp [checkParts, pyLstat, hn2, hok]

/-- Claim C10, witness: the one-entry manifest `{'foo.bar': ''}`
materializes to `False` on the concrete OS model, while
`is_pathname_valid('foo.bar')` is `True` on the all-probes-succeed
oracle. -/
theorem claim10_witness :
    (File.create_and_write_files demoOS (File.ofManifest fooM)
      ([] : DemoFS)).1 = false ∧
    is_pathname_valid demoResp fooList = VResult.ret true := by
  have h := claim10_bare_filename demoOS fooM ([] : DemoFS) fooList ⟨[]⟩
    (by decide) (by decide)
  exact ⟨h.1, h.2 demoResp (by decide) (by decide) rfl⟩

end Flaskeleton
